import Mathlib

/-!
Verification of the Stocksight demand-forecasting core against its source.

The JavaScript forecasting code of the repository
(`server/services/forecastService.js`, `server/controllers/forecastController.js`)
is shallowly embedded below:

* calendar dates are day indices (`ℕ`); the JS code only ever compares and
  sorts dates, never does calendar arithmetic on them;
* JS numbers are idealised as exact rationals, except where the code can
  produce the IEEE special values `NaN`/`Infinity` (division by zero,
  `Math.max` with `NaN`, ...), which are modelled by the `JSNum` type;
* `Math.random()` is modelled as an explicit stream `rand : ℕ → ℚ` of the
  values drawn (the i-th forecast period consumes `rand i`);
* `Math.sqrt` is modelled as an explicit parameter `sqrtFn : ℚ → ℚ` (its
  argument in this code is always a nonnegative variance); theorems assume
  only `0 ≤ x → 0 ≤ sqrtFn x`, which the real square root satisfies;
* the database collaborator (`dbHelpers`) is modelled as a total environment
  `env : ℕ → List SalesRecord` mapping a product id to the sales rows the
  query returns; persistence writes are dropped (they return their input).
-/

namespace Stocksight

/-- A row of the `sales_data` table as returned by `dbHelpers.getSalesData`:
`sale_date` (a calendar date, modelled as a day index) and `quantity_sold`. -/
structure SalesRecord where
  sale_date : ℕ
  quantity_sold : ℚ
deriving DecidableEq, Repr

/-! ### aggregateDailySales (forecastService.js lines 56-71)

`dailyMap` is a JS `Map`; `Map.set` on an existing key updates it in place,
on a new key appends it in insertion order.  The code then converts the map
to an array and sorts it by date. -/

/-- One `dailyMap.set(date, dailyMap.get(date) + quantity)` step on the
association list representing the JS `Map` (entries in insertion order). -/
def insertAdd : List (ℕ × ℚ) → ℕ → ℚ → List (ℕ × ℚ)
  | [], d, q => [(d, q)]
  | (e, v) :: rest, d, q =>
    if e = d then (e, v + q) :: rest else (e, v) :: insertAdd rest d q

/-- The `dailyMap` built by the `salesData.forEach` loop of
`aggregateDailySales`. -/
def dailyMapOf (salesData : List SalesRecord) : List (ℕ × ℚ) :=
  salesData.foldl (fun m s => insertAdd m s.sale_date s.quantity_sold) []

/-- `ForecastService.aggregateDailySales`: fold the sales rows into the daily
map, then sort the entries by date (the JS comparator
`new Date(a.date) - new Date(b.date)`; keys of a `Map` are distinct, so any
sort by date yields the same array). -/
def aggregateDailySales (salesData : List SalesRecord) : List (ℕ × ℚ) :=
  List.insertionSort (fun a b => a.1 ≤ b.1) (dailyMapOf salesData)

/-- Total quantity the derived daily series carries at date `d` (the sum of
the values of all entries with that date; after aggregation there is at most
one such entry). -/
def seriesTotalAt (series : List (ℕ × ℚ)) (d : ℕ) : ℚ :=
  ((series.filter (fun p => p.1 = d)).map Prod.snd).sum

/-- Total quantity of all sales records falling on date `d`. -/
def recordsTotalAt (s : List SalesRecord) (d : ℕ) : ℚ :=
  ((s.filter (fun r => r.sale_date = d)).map SalesRecord.quantity_sold).sum

/-! ### Recommendation rule (spec-modelled)

The repository's Python model `model/trendwise_forecaster.py` implements the
recommendation engine but the file itself is absent from the source snapshot;
only its documentation is present (the model README embedded next to
`server/config/database.js`, `Docs/` and `model/Docs/`). -/

/-- A stock recommendation of the TrendWise recommendation engine. -/
inductive Recommendation where
  | Increase : Recommendation
  | Maintain : Recommendation
  | Reduce : Recommendation
deriving DecidableEq, Repr

/-- Modelled from the spec: the decision rule of the recommendation engine in
the missing `model/trendwise_forecaster.py` (spec section 4.4 step 3, matching
the model README kept in the repository): evaluate in order
`current_stock < point_forecast` then `current_stock < point_forecast +
safety_stock`, yielding Increase / Maintain / Reduce. -/
def recommend (current_stock point_forecast safety_stock : ℚ) : Recommendation :=
  if current_stock < point_forecast then .Increase
  else if current_stock < point_forecast + safety_stock then .Maintain
  else .Reduce

/-! ### JavaScript number semantics

The forecasting code can hit `0/0` (`NaN`) and `x/0` (`Infinity`), and both
propagate through `Math.max`/`Math.min`/arithmetic.  `JSNum` models an IEEE
double idealised to exact rational arithmetic on the finite values. -/

/-- A JS number: `NaN`, the two infinities, or a finite value. -/
inductive JSNum where
  | nan : JSNum
  | inf : JSNum
  | ninf : JSNum
  | fin : ℚ → JSNum
deriving DecidableEq, Repr

/-- JS unary minus. -/
def jsNeg : JSNum → JSNum
  | .nan => .nan
  | .inf => .ninf
  | .ninf => .inf
  | .fin q => .fin (-q)

/-- JS addition. -/
def jsAdd : JSNum → JSNum → JSNum
  | .nan, _ => .nan
  | _, .nan => .nan
  | .inf, .ninf => .nan
  | .ninf, .inf => .nan
  | .inf, _ => .inf
  | _, .inf => .inf
  | .ninf, _ => .ninf
  | _, .ninf => .ninf
  | .fin a, .fin b => .fin (a + b)

/-- JS subtraction (`x - y`, which IEEE evaluates as `x + (-y)`). -/
def jsSub (a b : JSNum) : JSNum := jsAdd a (jsNeg b)

/-- JS multiplication. -/
def jsMul : JSNum → JSNum → JSNum
  | .nan, _ => .nan
  | _, .nan => .nan
  | .inf, .inf => .inf
  | .inf, .ninf => .ninf
  | .ninf, .inf => .ninf
  | .ninf, .ninf => .inf
  | .inf, .fin q => if q = 0 then .nan else if 0 < q then .inf else .ninf
  | .fin q, .inf => if q = 0 then .nan else if 0 < q then .inf else .ninf
  | .ninf, .fin q => if q = 0 then .nan else if 0 < q then .ninf else .inf
  | .fin q, .ninf => if q = 0 then .nan else if 0 < q then .ninf else .inf
  | .fin a, .fin b => .fin (a * b)

/-- JS division: `0/0` is `NaN`, `x/0` for `x ≠ 0` is a signed infinity. -/
def jsDiv : JSNum → JSNum → JSNum
  | .nan, _ => .nan
  | _, .nan => .nan
  | .inf, .inf => .nan
  | .inf, .ninf => .nan
  | .ninf, .inf => .nan
  | .ninf, .ninf => .nan
  | .inf, .fin q => if 0 ≤ q then .inf else .ninf
  | .ninf, .fin q => if 0 ≤ q then .ninf else .inf
  | .fin _, .inf => .fin 0
  | .fin _, .ninf => .fin 0
  | .fin a, .fin b =>
    if b = 0 then (if a = 0 then .nan else if 0 < a then .inf else .ninf)
    else .fin (a / b)

/-- JS `Math.max` of two numbers: `NaN` if either argument is `NaN`. -/
def jsMax : JSNum → JSNum → JSNum
  | .nan, _ => .nan
  | _, .nan => .nan
  | .inf, _ => .inf
  | _, .inf => .inf
  | .ninf, b => b
  | a, .ninf => a
  | .fin a, .fin b => .fin (max a b)

/-- JS `Math.min` of two numbers: `NaN` if either argument is `NaN`. -/
def jsMin : JSNum → JSNum → JSNum
  | .nan, _ => .nan
  | _, .nan => .nan
  | .ninf, _ => .ninf
  | _, .ninf => .ninf
  | .inf, b => b
  | a, .inf => a
  | .fin a, .fin b => .fin (min a b)

/-- JS `Math.round` on a finite value: round half toward positive infinity. -/
def jsRoundQ (x : ℚ) : ℤ := ⌊x + 1 / 2⌋

/-- JS `Math.round` on a general JS number. -/
def jsRound : JSNum → JSNum
  | .nan => .nan
  | .inf => .inf
  | .ninf => .ninf
  | .fin q => .fin (jsRoundQ q)

/-! ### The model bank (forecastService.js lines 73-159)

Each strategy receives the aggregated daily series, the horizon `days`, the
random stream and today's day index, and returns one `Prediction` per future
period (the JS `forecastDate` of loop iteration `i` is `today + i`,
`i = 1..days`; the `List.range` index `j` below corresponds to `i = j + 1`,
and iteration `i` consumes the draw `rand j`). -/

/-- One entry of a model's `predictions` array. -/
structure Prediction where
  date : ℕ
  predicted : JSNum
deriving DecidableEq, Repr

/-- The trailing 7-period mean used by `simpleMovingAverage`
(`values.slice(-7)` keeps the whole array when it is shorter than 7). -/
def smaAverage (dailySales : List (ℕ × ℚ)) : ℚ :=
  let values := dailySales.map Prod.snd
  let recentValues := values.drop (values.length - 7)
  recentValues.sum / (recentValues.length : ℚ)

/-- `ForecastService.simpleMovingAverage` (window fixed at its default 7):
the trailing mean scaled by a random factor `1 + (rand - 0.5) * 0.1`,
rounded, clamped at 0. -/
def simpleMovingAverage (dailySales : List (ℕ × ℚ)) (days : ℕ) (rand : ℕ → ℚ)
    (today : ℕ) : List Prediction :=
  let average := smaAverage dailySales
  (List.range days).map fun j =>
    let randomFactor := 1 + (rand j - 1 / 2) * (1 / 10)
    { date := today + j + 1,
      predicted := .fin ((max 0 (jsRoundQ (average * randomFactor)) : ℤ) : ℚ) }

/-- `ForecastService.exponentialSmoothing` (alpha fixed at its default 0.3):
fold `smoothed = 0.3 * value + 0.7 * smoothed` over the series starting from
`values[0]` (which is `undefined`, hence `NaN`, on an empty series — the
pipeline's 7-record guard makes that unreachable), then repeat the smoothed
level, rounded and clamped at 0, for every period. -/
def exponentialSmoothing (dailySales : List (ℕ × ℚ)) (days : ℕ) (_rand : ℕ → ℚ)
    (today : ℕ) : List Prediction :=
  let values := dailySales.map Prod.snd
  let smoothed : JSNum :=
    match values with
    | [] => .nan
    | v :: rest => .fin (rest.foldl (fun s x => (3 / 10) * x + (7 / 10) * s) v)
  (List.range days).map fun j =>
    { date := today + j + 1,
      predicted := jsMax (.fin 0) (jsRound smoothed) }

/-- `ForecastService.linearTrend`: least-squares slope and intercept over
`x = 0..n-1`, extended to `x = n + i - 1` for forecast period `i`.  On a
one-point series the slope denominator is 0 and the JS arithmetic yields
`NaN` predictions, which the embedding reproduces through `jsDiv`. -/
def linearTrend (dailySales : List (ℕ × ℚ)) (days : ℕ) (_rand : ℕ → ℚ)
    (today : ℕ) : List Prediction :=
  let values := dailySales.map Prod.snd
  let n := values.length
  let xValues : List ℚ := (List.range n).map (fun (i : ℕ) => (i : ℚ))
  let xSum := xValues.sum
  let ySum := values.sum
  let xySum := ((xValues.zip values).map (fun p => p.1 * p.2)).sum
  let x2Sum := (xValues.map (fun x => x * x)).sum
  let slope := jsDiv (.fin ((n : ℚ) * xySum - xSum * ySum))
    (.fin ((n : ℚ) * x2Sum - xSum * xSum))
  let intercept := jsDiv (jsSub (.fin ySum) (jsMul slope (.fin xSum))) (.fin (n : ℚ))
  (List.range days).map fun (j : ℕ) =>
    let x : ℚ := (n : ℚ) + (j : ℚ)
    { date := today + j + 1,
      predicted := jsMax (.fin 0) (jsRound (jsAdd (jsMul slope (.fin x)) intercept)) }

/-! ### calculateConfidenceIntervals (forecastService.js lines 161-174) -/

/-- Mean of the historical series' values (callers guarantee a nonempty
series: the service guard requires at least 7 sales rows). -/
def histMean (hist : List (ℕ × ℚ)) : ℚ :=
  (hist.map Prod.snd).sum / (hist.length : ℚ)

/-- Population variance of the historical series' values. -/
def histVariance (hist : List (ℕ × ℚ)) : ℚ :=
  ((hist.map Prod.snd).map (fun v => (v - histMean hist) ^ 2)).sum /
    (hist.length : ℚ)

/-- One entry of the forecast array after confidence post-processing. -/
structure PredCI where
  date : ℕ
  predicted : JSNum
  confidence_score : JSNum
  lower_bound : JSNum
  upper_bound : JSNum
deriving DecidableEq, Repr

/-- `ForecastService.calculateConfidenceIntervals`: standard deviation of the
full historical series, confidence
`Math.min(0.95, Math.max(0.65, 1 - (stdDev / mean) * 0.5))` (which is `NaN`
when `mean = 0` and `stdDev = 0`), and the band
`predicted ∓ Math.round(stdDev * 1.96)` with the lower bound clamped at 0. -/
def calculateConfidenceIntervals (sqrtFn : ℚ → ℚ) (predictions : List Prediction)
    (historicalData : List (ℕ × ℚ)) : List PredCI :=
  let mean := histMean historicalData
  let stdDev := sqrtFn (histVariance historicalData)
  let width : ℤ := jsRoundQ (stdDev * (49 / 25))
  predictions.map fun pred =>
    { date := pred.date
      predicted := pred.predicted
      confidence_score := jsMin (.fin (19 / 20)) (jsMax (.fin (13 / 20))
        (jsSub (.fin 1) (jsMul (jsDiv (.fin stdDev) (.fin mean)) (.fin (1 / 2)))))
      lower_bound := jsMax (.fin 0) (jsSub pred.predicted (.fin (width : ℚ)))
      upper_bound := jsAdd pred.predicted (.fin (width : ℚ)) }

/-! ### generateForecast and the bulk paths -/

/-- The model table of the `ForecastService` constructor together with the
fallback `this.models[model] || this.models.simple_moving_average`: any name
other than the three registered keys selects the simple moving average. -/
def lookupModel (model : String) (dailySales : List (ℕ × ℚ)) (days : ℕ)
    (rand : ℕ → ℚ) (today : ℕ) : List Prediction :=
  if model = "simple_moving_average" then
    simpleMovingAverage dailySales days rand today
  else if model = "exponential_smoothing" then
    exponentialSmoothing dailySales days rand today
  else if model = "linear_trend" then
    linearTrend dailySales days rand today
  else simpleMovingAverage dailySales days rand today

theorem lookupModel_sma (ds : List (ℕ × ℚ)) (days : ℕ) (rand : ℕ → ℚ) (today : ℕ) :
    lookupModel "simple_moving_average" ds days rand today =
      simpleMovingAverage ds days rand today := by
  unfold lookupModel
  rw [if_pos rfl]

theorem lookupModel_es (ds : List (ℕ × ℚ)) (days : ℕ) (rand : ℕ → ℚ) (today : ℕ) :
    lookupModel "exponential_smoothing" ds days rand today =
      exponentialSmoothing ds days rand today := by
  unfold lookupModel
  rw [if_neg (by decide), if_pos rfl]

theorem lookupModel_lt (ds : List (ℕ × ℚ)) (days : ℕ) (rand : ℕ → ℚ) (today : ℕ) :
    lookupModel "linear_trend" ds days rand today =
      linearTrend ds days rand today := by
  unfold lookupModel
  rw [if_neg (by decide), if_neg (by decide), if_pos rfl]

/-- The value returned by `ForecastService.generateForecast` on success
(`predictions` holds the rows persisted via `saveForecastToDatabase`, which
returns its input records under the total database model). -/
structure ForecastResponse where
  productId : ℕ
  model : String
  predictions : List PredCI
  dataPoints : ℕ
deriving DecidableEq, Repr

/-- The error message thrown for fewer than 7 sales rows. -/
def insufficientHistoryMsg : String :=
  "Insufficient historical data for forecasting"

/-- `ForecastService.generateForecast` (forecastService.js lines 12-54):
fetch the trailing-90-day sales rows (`env productId`), reject fewer than 7
rows, aggregate, run the selected model, attach confidence intervals. -/
def generateForecast (env : ℕ → List SalesRecord) (rand : ℕ → ℚ)
    (sqrtFn : ℚ → ℚ) (today productId : ℕ) (model : String) (days : ℕ) :
    Except String ForecastResponse :=
  let salesData := env productId
  if salesData.length < 7 then .error insufficientHistoryMsg
  else
    let dailySales := aggregateDailySales salesData
    let predictions := lookupModel model dailySales days rand today
    let withCI := calculateConfidenceIntervals sqrtFn predictions dailySales
    .ok { productId := productId, model := model, predictions := withCI,
          dataPoints := dailySales.length }

/-- One entry of the `results` array of
`ForecastService.generateBulkForecasts`. -/
structure BulkEntry where
  productId : ℕ
  success : Bool
  error : Option String
deriving DecidableEq, Repr

/-- `ForecastService.generateBulkForecasts` (lines 206-219): run
`generateForecast` per product (with its default `days = 14`), catching each
failure into a `success: false` entry instead of aborting the batch. -/
def generateBulkForecasts (env : ℕ → List SalesRecord) (rand : ℕ → ℚ)
    (sqrtFn : ℚ → ℚ) (today : ℕ) (productIds : List ℕ) (model : String) :
    List BulkEntry :=
  productIds.map fun pid =>
    match generateForecast env rand sqrtFn today pid model 14 with
    | .ok _ => { productId := pid, success := true, error := none }
    | .error e => { productId := pid, success := false, error := some e }

/-- A forecast row written by the controller's bulk loop. -/
structure CtrlRow where
  forecast_date : ℕ
  predicted_demand : ℤ
  confidence_score : ℚ
  lower_bound : ℤ
  upper_bound : ℤ
deriving DecidableEq, Repr

/-- The inner loop of `forecastController.bulkGenerateForecasts`
(forecastController.js lines 182-201) for one product: average of the
trailing-30-day rows, per-day prediction `avg * (1 + (rand - 0.5) * 0.2)`
rounded and clamped at 0, fixed confidence 0.75, bounds at 80% / 120%. -/
def ctrlBulkRows (rand : ℕ → ℚ) (today : ℕ) (salesData : List SalesRecord)
    (days : ℕ) : List CtrlRow :=
  let avgSales :=
    (salesData.map SalesRecord.quantity_sold).sum / (salesData.length : ℚ)
  (List.range days).map fun j =>
    let predicted := max 0 (jsRoundQ (avgSales * (1 + (rand j - 1 / 2) * (1 / 5))))
    { forecast_date := today + j + 1
      predicted_demand := predicted
      confidence_score := 3 / 4
      lower_bound := jsRoundQ ((predicted : ℚ) * (4 / 5))
      upper_bound := jsRoundQ ((predicted : ℚ) * (6 / 5)) }

/-- One entry of the controller's bulk `results` array (the source also
carries the product name; irrelevant here). -/
structure CtrlBulkEntry where
  productId : ℕ
  success : Bool
deriving DecidableEq, Repr

/-- `forecastController.bulkGenerateForecasts` (lines 162-243): for each
product, fetch the trailing-30-day rows; with fewer than 5 rows the loop
`continue`s — no entry of any kind is recorded for that product; otherwise
the forecast rows are computed and persisted and a `success: true` entry is
pushed.  Under the total database model the catch branch (lines 209-217) is
unreachable, so no exception escapes the per-product boundary.  `rand pIdx`
is the random stream consumed for the product at position `pIdx`. -/
def bulkGenerateForecastsCtrl (env : ℕ → List SalesRecord) (rand : ℕ → ℕ → ℚ)
    (today days : ℕ) : List ℕ → ℕ → List CtrlBulkEntry × List CtrlRow
  | [], _ => ([], [])
  | pid :: rest, pIdx =>
    let salesData := env pid
    if salesData.length < 5 then
      bulkGenerateForecastsCtrl env rand today days rest (pIdx + 1)
    else
      let rows := ctrlBulkRows (rand pIdx) today salesData days
      let tail := bulkGenerateForecastsCtrl env rand today days rest (pIdx + 1)
      ({ productId := pid, success := true } :: tail.1, rows ++ tail.2)

/-! ### Lemmas about the daily aggregation -/

theorem seriesTotalAt_cons (p : ℕ × ℚ) (l : List (ℕ × ℚ)) (e : ℕ) :
    seriesTotalAt (p :: l) e =
      (if p.1 = e then p.2 else 0) + seriesTotalAt l e := by
  by_cases h : p.1 = e <;> simp [seriesTotalAt, List.filter_cons, h]

theorem seriesTotalAt_insertAdd (m : List (ℕ × ℚ)) (d : ℕ) (q : ℚ) (e : ℕ) :
    seriesTotalAt (insertAdd m d q) e =
      seriesTotalAt m e + (if d = e then q else 0) := by
  induction m with
  | nil =>
    rw [show insertAdd [] d q = [(d, q)] from rfl, seriesTotalAt_cons]
    by_cases h : d = e <;> simp [seriesTotalAt, h]
  | cons p rest ih =>
    obtain ⟨pd, pv⟩ := p
    by_cases hpd : pd = d
    · subst hpd
      rw [show insertAdd ((pd, pv) :: rest) pd q = (pd, pv + q) :: rest by
        simp [insertAdd]]
      rw [seriesTotalAt_cons, seriesTotalAt_cons]
      by_cases hde : pd = e <;> simp [hde] <;> ring
    · rw [show insertAdd ((pd, pv) :: rest) d q = (pd, pv) :: insertAdd rest d q by
        simp [insertAdd, hpd]]
      rw [seriesTotalAt_cons, seriesTotalAt_cons, ih]
      ring

theorem seriesTotalAt_dailyMap_aux (rest : List SalesRecord)
    (m : List (ℕ × ℚ)) (e : ℕ) :
    seriesTotalAt (rest.foldl (fun m s => insertAdd m s.sale_date s.quantity_sold) m) e =
      seriesTotalAt m e + recordsTotalAt rest e := by
  induction rest generalizing m with
  | nil => simp [recordsTotalAt]
  | cons r rest ih =>
    simp only [List.foldl_cons]
    rw [ih]
    rw [seriesTotalAt_insertAdd]
    by_cases h : r.sale_date = e
    · simp [recordsTotalAt, List.filter_cons, h]
      ring
    · simp [recordsTotalAt, List.filter_cons, h]

theorem seriesTotalAt_perm {l l' : List (ℕ × ℚ)} (h : l.Perm l') (e : ℕ) :
    seriesTotalAt l e = seriesTotalAt l' e := by
  unfold seriesTotalAt
  exact ((h.filter _).map _).sum_eq

theorem mem_keys_insertAdd (m : List (ℕ × ℚ)) (d : ℕ) (q : ℚ) (e : ℕ) :
    e ∈ (insertAdd m d q).map Prod.fst ↔ e ∈ m.map Prod.fst ∨ e = d := by
  induction m with
  | nil => simp [insertAdd]
  | cons p rest ih =>
    obtain ⟨pd, pv⟩ := p
    by_cases hpd : pd = d
    · subst hpd
      rw [show insertAdd ((pd, pv) :: rest) pd q = (pd, pv + q) :: rest by
        simp [insertAdd]]
      simp only [List.map_cons, List.mem_cons]
      tauto
    · rw [show insertAdd ((pd, pv) :: rest) d q = (pd, pv) :: insertAdd rest d q by
        simp [insertAdd, hpd]]
      simp only [List.map_cons, List.mem_cons, ih]
      tauto

theorem keys_nodup_insertAdd (m : List (ℕ × ℚ)) (d : ℕ) (q : ℚ)
    (h : (m.map Prod.fst).Nodup) : ((insertAdd m d q).map Prod.fst).Nodup := by
  induction m with
  | nil => simp [insertAdd]
  | cons p rest ih =>
    obtain ⟨pd, pv⟩ := p
    simp only [List.map_cons, List.nodup_cons] at h
    by_cases hpd : pd = d
    · subst hpd
      rw [show insertAdd ((pd, pv) :: rest) pd q = (pd, pv + q) :: rest by
        simp [insertAdd]]
      rw [List.map_cons, List.nodup_cons]
      exact ⟨h.1, h.2⟩
    · rw [show insertAdd ((pd, pv) :: rest) d q = (pd, pv) :: insertAdd rest d q by
        simp [insertAdd, hpd]]
      rw [List.map_cons, List.nodup_cons]
      refine ⟨?_, ih h.2⟩
      rw [mem_keys_insertAdd]
      rintro (hc | hc)
      · exact h.1 hc
      · exact hpd hc

theorem keys_nodup_dailyMap_aux (rest : List SalesRecord) (m : List (ℕ × ℚ))
    (h : (m.map Prod.fst).Nodup) :
    ((rest.foldl (fun m s => insertAdd m s.sale_date s.quantity_sold) m).map
      Prod.fst).Nodup := by
  induction rest generalizing m with
  | nil => exact h
  | cons r rest ih =>
    simp only [List.foldl_cons]
    exact ih _ (keys_nodup_insertAdd _ _ _ h)

theorem mem_keys_dailyMap_aux (rest : List SalesRecord) (m : List (ℕ × ℚ)) (e : ℕ) :
    e ∈ ((rest.foldl (fun m s => insertAdd m s.sale_date s.quantity_sold) m).map
        Prod.fst) ↔
      e ∈ m.map Prod.fst ∨ ∃ r ∈ rest, r.sale_date = e := by
  induction rest generalizing m with
  | nil => simp
  | cons r rest ih =>
    simp only [List.foldl_cons, ih, mem_keys_insertAdd, List.mem_cons]
    constructor
    · rintro ((h | h) | ⟨r', hr', he⟩)
      · exact Or.inl h
      · exact Or.inr ⟨r, Or.inl rfl, h.symm⟩
      · exact Or.inr ⟨r', Or.inr hr', he⟩
    · rintro (h | ⟨r', (hr' | hr'), he⟩)
      · exact Or.inl (Or.inl h)
      · exact Or.inl (Or.inr (hr' ▸ he.symm))
      · exact Or.inr ⟨r', hr', he⟩

/-- Claim C1 (spec-modelled): the decision rule is evaluated in order:
below the raw forecast always yields Increase regardless of safety stock;
otherwise below forecast plus safety stock yields Maintain; otherwise
Reduce. -/
theorem C1_recommendation_rule (cs pf ss : ℚ) :
    (cs < pf → recommend cs pf ss = .Increase) ∧
    (¬ cs < pf → cs < pf + ss → recommend cs pf ss = .Maintain) ∧
    (¬ cs < pf → ¬ cs < pf + ss → recommend cs pf ss = .Reduce) := by
  refine ⟨fun h => ?_, fun h1 h2 => ?_, fun h1 h2 => ?_⟩
  · simp [recommend, h]
  · simp [recommend, h1, h2]
  · simp [recommend, h1, h2]

/-- Witness for C1: evaluating the rule at concrete stock levels. -/
theorem C1_rule_witness :
    recommend 1 2 5 = .Increase ∧ recommend 3 2 5 = .Maintain ∧
      recommend 9 2 5 = .Reduce :=
  ⟨(C1_recommendation_rule 1 2 5).1 (by norm_num),
   (C1_recommendation_rule 3 2 5).2.1 (by norm_num) (by norm_num),
   (C1_recommendation_rule 9 2 5).2.2 (by norm_num) (by norm_num)⟩

/-- Claim C2: the derived daily series has one entry per date (its keys are
pairwise distinct), and for every calendar date the quantity it carries at
that date is the sum of the quantities of all sales records on that date —
records sharing a date are summed, never overwritten. -/
theorem C2_aggregation_sum (s : List SalesRecord) :
    ((aggregateDailySales s).map Prod.fst).Nodup ∧
    ∀ d : ℕ, seriesTotalAt (aggregateDailySales s) d = recordsTotalAt s d := by
  have hperm : (aggregateDailySales s).Perm (dailyMapOf s) :=
    List.perm_insertionSort _ _
  constructor
  · exact ((hperm.map Prod.fst).nodup_iff).mpr
      (keys_nodup_dailyMap_aux s [] (by simp))
  · intro d
    rw [seriesTotalAt_perm hperm]
    have := seriesTotalAt_dailyMap_aux s [] d
    simpa [dailyMapOf, seriesTotalAt] using this

/-- Counterexample to claim C3: sales on days 0 and 2 only.  The derived
series spans the dates 0 and 2 but has no entry at all for the intermediate
day 1 — the gap is omitted, not filled with 0. -/
theorem C3_gap_cex :
    aggregateDailySales [⟨0, 5⟩, ⟨2, 7⟩] = [(0, 5), (2, 7)] := by
  norm_num [aggregateDailySales, dailyMapOf, insertAdd,
    List.insertionSort, List.orderedInsert]

/-- Claim C3 amended: the derived series has an entry for a date if and only
if some sales record falls on that date; periods between the first and last
period with no sales records are omitted from the series, not zero-filled. -/
theorem C3_dates_iff (s : List SalesRecord) (d : ℕ) :
    (∃ q, (d, q) ∈ aggregateDailySales s) ↔ ∃ r ∈ s, r.sale_date = d := by
  have hperm : (aggregateDailySales s).Perm (dailyMapOf s) :=
    List.perm_insertionSort _ _
  have hkeys : d ∈ (dailyMapOf s).map Prod.fst ↔ ∃ r ∈ s, r.sale_date = d := by
    have := mem_keys_dailyMap_aux s [] d
    simpa [dailyMapOf] using this
  rw [← hkeys]
  constructor
  · rintro ⟨q, hq⟩
    exact List.mem_map.mpr ⟨(d, q), hperm.mem_iff.mp hq, rfl⟩
  · intro h
    obtain ⟨⟨pd, q⟩, hm, he⟩ := List.mem_map.mp h
    subst he
    exact ⟨q, hperm.mem_iff.mpr hm⟩

/-! ### Helper lemmas and concrete runs -/

/-- Whether an `Except` value is a success. -/
def exceptOk {ε α : Type} : Except ε α → Bool
  | .ok _ => true
  | .error _ => false

/-- The model string echoed by a successful forecast response. -/
def modelOf : Except String ForecastResponse → Option String
  | .ok resp => some resp.model
  | .error _ => none

/-- The point forecast of the first prediction of a forecast response. -/
def firstPredicted : Except String ForecastResponse → Option JSNum
  | .ok resp => resp.predictions.head?.map PredCI.predicted
  | .error _ => none

/-- The confidence scores of all predictions of a forecast response. -/
def confidencesOf : Except String ForecastResponse → List JSNum
  | .ok resp => resp.predictions.map PredCI.confidence_score
  | .error _ => []

/-- The point forecasts of all predictions of a forecast response. -/
def predictedsOf : Except String ForecastResponse → List JSNum
  | .ok resp => resp.predictions.map PredCI.predicted
  | .error _ => []

theorem generateForecast_error_iff (env : ℕ → List SalesRecord) (rand : ℕ → ℚ)
    (sqrtFn : ℚ → ℚ) (today pid : ℕ) (model : String) (days : ℕ) :
    generateForecast env rand sqrtFn today pid model days =
        .error insufficientHistoryMsg ↔ (env pid).length < 7 := by
  by_cases h : (env pid).length < 7 <;> simp [generateForecast, h]

theorem generateForecast_ok (env : ℕ → List SalesRecord) (rand : ℕ → ℚ)
    (sqrtFn : ℚ → ℚ) (today pid : ℕ) (model : String) (days : ℕ)
    (h : ¬ (env pid).length < 7) :
    generateForecast env rand sqrtFn today pid model days =
      .ok { productId := pid, model := model,
            predictions := calculateConfidenceIntervals sqrtFn
              (lookupModel model (aggregateDailySales (env pid)) days rand today)
              (aggregateDailySales (env pid)),
            dataPoints := (aggregateDailySales (env pid)).length } := by
  simp [generateForecast, h]

/-- Claim C4 amended, part of the proof: entry structure of the two bulk
paths, for any environment and any product list. -/
theorem bulk_entry_structure (env env2 : ℕ → List SalesRecord) (rand : ℕ → ℚ)
    (rand2 : ℕ → ℕ → ℚ) (sqrtFn : ℚ → ℚ) (today today2 days2 pIdx : ℕ)
    (model : String) (pids : List ℕ) :
    (generateBulkForecasts env rand sqrtFn today pids model).map
        (fun e => (e.productId, e.success)) =
      pids.map (fun p => (p, decide (7 ≤ (env p).length))) ∧
    (bulkGenerateForecastsCtrl env2 rand2 today2 days2 pids pIdx).1.map
        CtrlBulkEntry.productId =
      pids.filter (fun p => decide (5 ≤ (env2 p).length)) ∧
    ∀ e ∈ (bulkGenerateForecastsCtrl env2 rand2 today2 days2 pids pIdx).1,
      e.success = true := by
  refine ⟨?_, ?_⟩
  · unfold generateBulkForecasts
    rw [List.map_map]
    refine List.map_congr_left fun p _ => ?_
    simp only [Function.comp_apply]
    by_cases h : (env p).length < 7
    · rw [(generateForecast_error_iff env rand sqrtFn today p model 14).mpr h]
      simp
      omega
    · rw [generateForecast_ok env rand sqrtFn today p model 14 h]
      simp
      omega
  · induction pids generalizing pIdx with
    | nil => simp [bulkGenerateForecastsCtrl]
    | cons p rest ih =>
      by_cases h : (env2 p).length < 5
      · have h' : ¬ 5 ≤ (env2 p).length := by omega
        simp only [bulkGenerateForecastsCtrl, if_pos h, List.filter_cons]
        simp only [h', decide_False, Bool.false_eq_true, if_false]
        exact ⟨(ih (pIdx + 1)).1, (ih (pIdx + 1)).2⟩
      · have h' : 5 ≤ (env2 p).length := by omega
        simp only [bulkGenerateForecastsCtrl, if_neg h, List.filter_cons]
        simp only [h', decide_True, if_true, List.map_cons]
        refine ⟨by rw [(ih (pIdx + 1)).1], ?_⟩
        intro e he
        rcases List.mem_cons.mp he with he | he
        · rw [he]
        · exact (ih (pIdx + 1)).2 e he

/-- Sales rows used by the C4 counterexample: product 1 has five valid
records, product 0 has none. -/
def envC4 : ℕ → List SalesRecord := fun p =>
  if p = 1 then [⟨0, 2⟩, ⟨1, 2⟩, ⟨2, 2⟩, ⟨3, 2⟩, ⟨4, 2⟩] else []

/-- Counterexample to claim C4: a controller bulk batch over products 0 and 1
where product 0 has zero sales records.  The response's `results` array
contains only the single success entry for product 1 — the bad product is
skipped silently (`continue`), leaving no skip/failure entry at all, not
"exactly one". -/
theorem C4_ctrl_skip_cex :
    (bulkGenerateForecastsCtrl envC4 (fun _ _ => 1 / 2) 0 1 [0, 1] 0).1 =
      [{ productId := 1, success := true }] := by
  norm_num [bulkGenerateForecastsCtrl, envC4]

/-- Claim C4 amended: the service-level `generateBulkForecasts` returns one
entry per requested product — `success: true` for each product with at least
7 sales rows and a `success: false` failure entry for each product with
fewer (so zero valid records), and never an exception; the controller-level
`bulkGenerateForecasts`, however, records entries only for products with at
least 5 sales rows, all successful — a product with zero valid records is
skipped silently with no skip/failure entry in the response. -/
theorem C4_bulk_resilience (env env2 : ℕ → List SalesRecord) (rand : ℕ → ℚ)
    (rand2 : ℕ → ℕ → ℚ) (sqrtFn : ℚ → ℚ) (today today2 days2 pIdx : ℕ)
    (model : String) (pids : List ℕ) :
    (generateBulkForecasts env rand sqrtFn today pids model).map
        (fun e => (e.productId, e.success)) =
      pids.map (fun p => (p, decide (7 ≤ (env p).length))) ∧
    (bulkGenerateForecastsCtrl env2 rand2 today2 days2 pids pIdx).1.map
        CtrlBulkEntry.productId =
      pids.filter (fun p => decide (5 ≤ (env2 p).length)) ∧
    ∀ e ∈ (bulkGenerateForecastsCtrl env2 rand2 today2 days2 pids pIdx).1,
      e.success = true :=
  bulk_entry_structure env env2 rand rand2 sqrtFn today today2 days2 pIdx model pids

/-- Sales rows used by the C5 counterexample: product 0 has exactly 10
records on 10 distinct days — far fewer than 90 daily periods. -/
def envC5 : ℕ → List SalesRecord := fun _ =>
  [⟨0, 1⟩, ⟨1, 1⟩, ⟨2, 1⟩, ⟨3, 1⟩, ⟨4, 1⟩, ⟨5, 1⟩, ⟨6, 1⟩, ⟨7, 1⟩, ⟨8, 1⟩, ⟨9, 1⟩]

/-- Counterexample to claim C5: a product with only 10 daily periods of
history — far below the claimed 90-daily-period minimum — is accepted and
forecast by the service rather than being rejected as ineligible. -/
theorem C5_short_history_accepted_cex :
    (envC5 0).length = 10 ∧
    exceptOk (generateForecast envC5 (fun _ => 1 / 2) (fun _ => 0) 0 0
      "simple_moving_average" 1) = true := by
  constructor
  · norm_num [envC5]
  · rw [generateForecast_ok envC5 (fun _ => 1 / 2) (fun _ => 0) 0 0
      "simple_moving_average" 1 (by norm_num [envC5])]
    rfl

/-- Claim C5 amended: the minimum-history gate of the code is a raw record
count, not a period count at a detected cadence: the service rejects a
product with the insufficient-history error exactly when it has fewer than 7
sales rows (and models every product with at least 7 rows), and the
controller's bulk path skips a product exactly when it has fewer than 5
rows. -/
theorem C5_record_thresholds (env env2 : ℕ → List SalesRecord) (rand : ℕ → ℚ)
    (rand2 : ℕ → ℕ → ℚ) (sqrtFn : ℚ → ℚ) (today today2 days days2 pIdx pid : ℕ)
    (model : String) :
    (generateForecast env rand sqrtFn today pid model days =
        .error insufficientHistoryMsg ↔ (env pid).length < 7) ∧
    ((bulkGenerateForecastsCtrl env2 rand2 today2 days2 [pid] pIdx).1 = [] ↔
        (env2 pid).length < 5) := by
  refine ⟨generateForecast_error_iff env rand sqrtFn today pid model days, ?_⟩
  by_cases h : (env2 pid).length < 5 <;>
    simp [bulkGenerateForecastsCtrl, h]

theorem sma_rand_congr (ds : List (ℕ × ℚ)) (days today : ℕ)
    (rand1 rand2 : ℕ → ℚ) (h : ∀ i < days, rand1 i = rand2 i) :
    simpleMovingAverage ds days rand1 today =
      simpleMovingAverage ds days rand2 today := by
  unfold simpleMovingAverage
  refine List.map_congr_left fun j hj => ?_
  rw [h j (List.mem_range.mp hj)]

/-- Claim C6 amended: prediction is deterministic only once the sampled
random factors are fixed along with the inputs: if two runs share the sales
history, model, horizon, and the first `days` draws of the random stream,
their results are identical. -/
theorem C6_deterministic_given_draws (env : ℕ → List SalesRecord)
    (rand1 rand2 : ℕ → ℚ) (sqrtFn : ℚ → ℚ) (today pid : ℕ) (model : String)
    (days : ℕ) (h : ∀ i < days, rand1 i = rand2 i) :
    generateForecast env rand1 sqrtFn today pid model days =
      generateForecast env rand2 sqrtFn today pid model days := by
  by_cases hlen : (env pid).length < 7
  · simp [generateForecast, hlen]
  · rw [generateForecast_ok env rand1 sqrtFn today pid model days hlen,
      generateForecast_ok env rand2 sqrtFn today pid model days hlen]
    have hm : lookupModel model (aggregateDailySales (env pid)) days rand1 today =
        lookupModel model (aggregateDailySales (env pid)) days rand2 today := by
      unfold lookupModel
      split_ifs
      · exact sma_rand_congr _ _ _ _ _ h
      · rfl
      · rfl
      · exact sma_rand_congr _ _ _ _ _ h
    rw [hm]

/-- Witness for C6: two concrete streams that agree on the horizon but differ
beyond it give the same run. -/
theorem C6_witness :
    generateForecast envC5 (fun i => if i < 2 then 1 / 2 else 0) (fun _ => 0)
        0 0 "simple_moving_average" 2 =
      generateForecast envC5 (fun _ => 1 / 2) (fun _ => 0) 0 0
        "simple_moving_average" 2 :=
  C6_deterministic_given_draws envC5 _ _ (fun _ => 0) 0 0
    "simple_moving_average" 2 (by intro i hi; simp [hi])

/-- Claim C10: any model name outside the three registered keys silently
selects the simple moving average; the run behaves exactly as a
`simple_moving_average` run (same success/failure, same predictions), with
the unknown name merely echoed in the response — no unknown-model error. -/
theorem C10_unknown_model_fallback (env : ℕ → List SalesRecord) (rand : ℕ → ℚ)
    (sqrtFn : ℚ → ℚ) (today pid days : ℕ) (m : String)
    (h1 : m ≠ "simple_moving_average") (h2 : m ≠ "exponential_smoothing")
    (h3 : m ≠ "linear_trend") :
    generateForecast env rand sqrtFn today pid m days =
      Except.map (fun resp => { resp with model := m })
        (generateForecast env rand sqrtFn today pid "simple_moving_average" days) := by
  by_cases hlen : (env pid).length < 7
  · simp [generateForecast, hlen, Except.map]
  · rw [generateForecast_ok env rand sqrtFn today pid m days hlen,
      generateForecast_ok env rand sqrtFn today pid "simple_moving_average" days hlen]
    simp [Except.map, lookupModel, h1, h2, h3]

/-- Witness for C10: the unregistered name "prophet" (the primary model of
the spec's model bank) runs as a simple moving average. -/
theorem C10_witness :
    generateForecast envC5 (fun _ => 1 / 2) (fun _ => 0) 0 0 "prophet" 1 =
      Except.map (fun resp => { resp with model := "prophet" })
        (generateForecast envC5 (fun _ => 1 / 2) (fun _ => 0) 0 0
          "simple_moving_average" 1) :=
  C10_unknown_model_fallback envC5 (fun _ => 1 / 2) (fun _ => 0) 0 0 1 "prophet"
    (by decide) (by decide) (by decide)

/-! ### Concrete runs for the remaining counterexamples -/

/-- Seven sales records of constant quantity 100 on consecutive days. -/
def recsHundred : List SalesRecord :=
  [⟨0, 100⟩, ⟨1, 100⟩, ⟨2, 100⟩, ⟨3, 100⟩, ⟨4, 100⟩, ⟨5, 100⟩, ⟨6, 100⟩]

/-- Environment with the constant-100 history for every product. -/
def envHundred : ℕ → List SalesRecord := fun _ => recsHundred

theorem agg_recsHundred : aggregateDailySales recsHundred =
    [(0, 100), (1, 100), (2, 100), (3, 100), (4, 100), (5, 100), (6, 100)] := by
  norm_num [aggregateDailySales, dailyMapOf, insertAdd, recsHundred,
    List.insertionSort, List.orderedInsert]

/-- Seven sales records of quantity 0 on consecutive days: a constant-zero
series with enough rows to pass the 7-record guard. -/
def recsZero : List SalesRecord :=
  [⟨0, 0⟩, ⟨1, 0⟩, ⟨2, 0⟩, ⟨3, 0⟩, ⟨4, 0⟩, ⟨5, 0⟩, ⟨6, 0⟩]

/-- Environment with the constant-zero history for every product. -/
def envZero : ℕ → List SalesRecord := fun _ => recsZero

theorem agg_recsZero : aggregateDailySales recsZero =
    [(0, 0), (1, 0), (2, 0), (3, 0), (4, 0), (5, 0), (6, 0)] := by
  norm_num [aggregateDailySales, dailyMapOf, insertAdd, recsZero,
    List.insertionSort, List.orderedInsert]

/-- Counterexample to claim C6: the same sales history (constant 100), same
model, same horizon — but the first run draws `Math.random() = 0` and the
second draws `0.5`, producing point forecasts 95 and 100.  The prediction
depends on the random draw, so two runs with identical user-level inputs
need not agree. -/
theorem C6_random_nondeterminism_cex :
    firstPredicted (generateForecast envHundred (fun _ => 0) (fun _ => 0) 0 0
        "simple_moving_average" 1) = some (.fin 95) ∧
    firstPredicted (generateForecast envHundred (fun _ => 1 / 2) (fun _ => 0) 0 0
        "simple_moving_average" 1) = some (.fin 100) := by
  constructor <;>
  · rw [show (0 : ℕ) = 0 from rfl,
      generateForecast_ok _ _ _ _ _ _ _ (by norm_num [envHundred, recsHundred])]
    show firstPredicted (.ok _) = _
    rw [show envHundred 0 = recsHundred from rfl, agg_recsHundred]
    norm_num [firstPredicted, lookupModel, simpleMovingAverage, smaAverage,
      calculateConfidenceIntervals, jsRoundQ, List.range_succ]

/-- Counterexample to claim C7: the constant-zero series passes the 7-record
guard and produces a forecast, but its historical mean is 0, so the
confidence computation divides 0 by 0: the returned confidence score is
`NaN` — not a number in [0, 1]. -/
theorem C7_nan_confidence_cex :
    exceptOk (generateForecast envZero (fun _ => 1 / 2) (fun _ => 0) 0 0
        "simple_moving_average" 1) = true ∧
    confidencesOf (generateForecast envZero (fun _ => 1 / 2) (fun _ => 0) 0 0
        "simple_moving_average" 1) = [JSNum.nan] := by
  rw [generateForecast_ok _ _ _ _ _ _ _ (by norm_num [envZero, recsZero])]
  refine ⟨rfl, ?_⟩
  show confidencesOf (.ok _) = _
  rw [show envZero 0 = recsZero from rfl, agg_recsZero]
  norm_num [confidencesOf, lookupModel, simpleMovingAverage, smaAverage,
    calculateConfidenceIntervals, histMean, histVariance, jsRoundQ,
    jsMin, jsMax, jsSub, jsAdd, jsNeg, jsMul, jsDiv, List.range_succ]

/-- The random stream of the C8 counterexample: first draw 0, then 0.5. -/
def randC8 : ℕ → ℚ := fun i => if i = 0 then 0 else 1 / 2

/-- Counterexample to claim C8: on the constant-100 series the trailing
7-period mean is 100, yet the moving-average strategy forecasts 95 then 100
over a 2-period horizon — the random scaling makes the forecast neither
flat nor equal to the trailing mean. -/
theorem C8_not_flat_mean_cex :
    smaAverage [(0, 100), (1, 100), (2, 100), (3, 100), (4, 100), (5, 100), (6, 100)] = 100 ∧
    (simpleMovingAverage
        [(0, 100), (1, 100), (2, 100), (3, 100), (4, 100), (5, 100), (6, 100)]
        2 randC8 0).map Prediction.predicted = [JSNum.fin 95, JSNum.fin 100] := by
  constructor
  · norm_num [smaAverage]
  · norm_num [simpleMovingAverage, smaAverage, randC8, jsRoundQ,
      List.range_succ]

/-- The constant-zero degenerate run of the C9 counterexample (requesting the
exponential-smoothing model over a 2-period horizon). -/
def runZeroES : Except String ForecastResponse :=
  generateForecast envZero (fun _ => 1 / 2) (fun _ => 0) 0 0
    "exponential_smoothing" 2

/-- Counterexample to claim C9: on a constant-zero series the service does
return a result (no failure), but there is no fallback to a Naive model —
the requested model is used unchanged — and instead of a flagged low
confidence score the division 0/0 makes every confidence score `NaN`, an
undefined value. -/
theorem C9_degenerate_nan_cex :
    exceptOk runZeroES = true ∧
    modelOf runZeroES = some "exponential_smoothing" ∧
    predictedsOf runZeroES = [JSNum.fin 0, JSNum.fin 0] ∧
    confidencesOf runZeroES = [JSNum.nan, JSNum.nan] := by
  have hok := generateForecast_ok envZero (fun _ => 1 / 2) (fun _ => 0) 0 0
    "exponential_smoothing" 2 (by norm_num [envZero, recsZero])
  rw [show runZeroES = generateForecast envZero (fun _ => 1 / 2) (fun _ => 0) 0 0
    "exponential_smoothing" 2 from rfl, hok]
  refine ⟨rfl, rfl, ?_, ?_⟩ <;>
  · show _ = _
    rw [show envZero 0 = recsZero from rfl, agg_recsZero, lookupModel_es]
    norm_num [predictedsOf, confidencesOf, exponentialSmoothing,
      calculateConfidenceIntervals, histMean, histVariance, jsRoundQ, jsRound,
      jsMin, jsMax, jsSub, jsAdd, jsNeg, jsMul, jsDiv, List.range_succ]

/-! ### Shape lemmas for the model outputs -/

theorem jsAdd_fin (a b : ℚ) : jsAdd (.fin a) (.fin b) = .fin (a + b) := rfl

theorem jsSub_fin (a b : ℚ) : jsSub (.fin a) (.fin b) = .fin (a + -b) := rfl

theorem jsMul_fin (a b : ℚ) : jsMul (.fin a) (.fin b) = .fin (a * b) := rfl

theorem jsMax_fin (a b : ℚ) : jsMax (.fin a) (.fin b) = .fin (max a b) := rfl

theorem jsMin_fin (a b : ℚ) : jsMin (.fin a) (.fin b) = .fin (min a b) := rfl

theorem jsDiv_fin_ne (a b : ℚ) (hb : b ≠ 0) :
    jsDiv (.fin a) (.fin b) = .fin (a / b) := by
  simp [jsDiv, hb]

theorem jsRoundQ_nonneg (x : ℚ) (hx : 0 ≤ x) : 0 ≤ jsRoundQ x := by
  rw [jsRoundQ]
  exact Int.le_floor.mpr (by push_cast; linarith)

theorem jsMax0_round_fin (q : ℚ) :
    jsMax (.fin 0) (jsRound (.fin q)) = .fin ((max 0 (jsRoundQ q) : ℤ) : ℚ) := by
  show JSNum.fin (max 0 ((jsRoundQ q : ℤ) : ℚ)) = _
  congr 1
  push_cast
  rfl

theorem histVariance_nonneg (hist : List (ℕ × ℚ)) : 0 ≤ histVariance hist := by
  unfold histVariance
  apply div_nonneg
  · apply List.sum_nonneg
    intro x hx
    obtain ⟨v, _, rfl⟩ := List.mem_map.mp hx
    positivity
  · positivity

theorem sum_range_cast (n : ℕ) :
    ((List.range n).map (fun (i : ℕ) => (i : ℚ))).sum = n * (n - 1) / 2 := by
  induction n with
  | zero => simp
  | succ n ih =>
    rw [List.range_succ, List.map_append, List.sum_append, ih]
    simp only [List.map_cons, List.map_nil, List.sum_cons, List.sum_nil]
    push_cast
    ring

theorem sum_range_sq_cast (n : ℕ) :
    (((List.range n).map (fun (i : ℕ) => (i : ℚ))).map (fun x => x * x)).sum =
      n * (n - 1) * (2 * n - 1) / 6 := by
  induction n with
  | zero => simp
  | succ n ih =>
    rw [List.range_succ, List.map_append, List.map_append, List.sum_append, ih]
    simp only [List.map_cons, List.map_nil, List.sum_cons, List.sum_nil]
    push_cast
    ring

/-- The least-squares denominator `n * Σx² - (Σx)²` over `x = 0..n-1` is
positive as soon as the series has at least two points. -/
theorem lt_den_pos (n : ℕ) (h2 : 2 ≤ n) :
    0 < (n : ℚ) *
        (((List.range n).map (fun (i : ℕ) => (i : ℚ))).map (fun x => x * x)).sum -
      ((List.range n).map (fun (i : ℕ) => (i : ℚ))).sum *
        ((List.range n).map (fun (i : ℕ) => (i : ℚ))).sum := by
  rw [sum_range_sq_cast, sum_range_cast]
  have hm : (2 : ℚ) ≤ (n : ℚ) := by exact_mod_cast h2
  have key : (n : ℚ) * ((n : ℚ) * ((n : ℚ) - 1) * (2 * (n : ℚ) - 1) / 6) -
      (n : ℚ) * ((n : ℚ) - 1) / 2 * ((n : ℚ) * ((n : ℚ) - 1) / 2) =
      (n : ℚ) * (n : ℚ) * ((n : ℚ) - 1) * ((n : ℚ) + 1) / 12 := by ring
  rw [key]
  have h0 : (0 : ℚ) < (n : ℚ) := by linarith
  have ha : (0 : ℚ) < (n : ℚ) - 1 := by linarith
  have hb : (0 : ℚ) < (n : ℚ) + 1 := by linarith
  have := mul_pos (mul_pos (mul_pos h0 h0) ha) hb
  linarith

theorem sma_predicted_shape (ds : List (ℕ × ℚ)) (days today : ℕ) (rand : ℕ → ℚ) :
    ∀ p ∈ simpleMovingAverage ds days rand today,
      ∃ z : ℤ, p.predicted = .fin (z : ℚ) ∧ 0 ≤ z := by
  intro p hp
  simp only [simpleMovingAverage, List.mem_map] at hp
  obtain ⟨j, _, rfl⟩ := hp
  exact ⟨_, rfl, le_max_left 0 _⟩

theorem es_predicted_shape (ds : List (ℕ × ℚ)) (days today : ℕ) (rand : ℕ → ℚ)
    (hne : ds ≠ []) :
    ∀ p ∈ exponentialSmoothing ds days rand today,
      ∃ z : ℤ, p.predicted = .fin (z : ℚ) ∧ 0 ≤ z := by
  intro p hp
  simp only [exponentialSmoothing, List.mem_map] at hp
  obtain ⟨j, _, rfl⟩ := hp
  cases hds : ds.map Prod.snd with
  | nil => exact absurd (List.map_eq_nil_iff.mp hds) hne
  | cons v rest =>
    refine ⟨max 0 (jsRoundQ (List.foldl (fun s x => 3 / 10 * x + 7 / 10 * s) v rest)),
      ?_, le_max_left 0 _⟩
    exact jsMax0_round_fin _

theorem lt_predicted_shape (ds : List (ℕ × ℚ)) (days today : ℕ) (rand : ℕ → ℚ)
    (h2 : 2 ≤ ds.length) :
    ∀ p ∈ linearTrend ds days rand today,
      ∃ z : ℤ, p.predicted = .fin (z : ℚ) ∧ 0 ≤ z := by
  intro p hp
  simp only [linearTrend, List.mem_map] at hp
  obtain ⟨j, _, rfl⟩ := hp
  have hlen : (ds.map Prod.snd).length = ds.length := List.length_map _ _
  have hden : ((ds.map Prod.snd).length : ℚ) *
        (((List.range (ds.map Prod.snd).length).map (fun (i : ℕ) => (i : ℚ))).map
          (fun x => x * x)).sum -
      ((List.range (ds.map Prod.snd).length).map (fun (i : ℕ) => (i : ℚ))).sum *
        ((List.range (ds.map Prod.snd).length).map (fun (i : ℕ) => (i : ℚ))).sum ≠ 0 := by
    have := lt_den_pos (ds.map Prod.snd).length (by omega)
    linarith
  have hn : ((ds.map Prod.snd).length : ℚ) ≠ 0 := by
    have : (0 : ℚ) < ((ds.map Prod.snd).length : ℚ) := by
      have : 0 < (ds.map Prod.snd).length := by omega
      exact_mod_cast this
    linarith
  simp only [jsDiv_fin_ne _ _ hden, jsDiv_fin_ne _ _ hn, jsMul_fin, jsSub_fin,
    jsAdd_fin]
  exact ⟨_, jsMax0_round_fin _, le_max_left 0 _⟩

theorem lookup_predicted_shape (model : String) (ds : List (ℕ × ℚ))
    (days today : ℕ) (rand : ℕ → ℚ) (h2 : 2 ≤ ds.length) :
    ∀ p ∈ lookupModel model ds days rand today,
      ∃ z : ℤ, p.predicted = .fin (z : ℚ) ∧ 0 ≤ z := by
  intro p hp
  unfold lookupModel at hp
  split_ifs at hp
  · exact sma_predicted_shape ds days today rand p hp
  · exact es_predicted_shape ds days today rand
      (List.length_pos.mp (by omega)) p hp
  · exact lt_predicted_shape ds days today rand h2 p hp
  · exact sma_predicted_shape ds days today rand p hp

/-- Claim C7 amended: once the aggregated series has at least two periods
(one-period series make `linearTrend` divide by zero), every prediction of a
successful run has a finite nonnegative point forecast and finite bounds with
`0 ≤ lower ≤ upper`; the confidence score is a rational in
`[0.65, 0.95] ⊆ [0, 1]` whenever the historical mean is nonzero, but for a
zero-mean history (e.g. a constant-zero series) it is `NaN`, not a number in
`[0, 1]`. -/
theorem C7_result_invariants (env : ℕ → List SalesRecord) (rand : ℕ → ℚ)
    (sqrtFn : ℚ → ℚ) (today pid : ℕ) (model : String) (days : ℕ)
    (hsq : ∀ x : ℚ, 0 ≤ x → 0 ≤ sqrtFn x)
    (h2 : 2 ≤ (aggregateDailySales (env pid)).length) :
    ∀ resp, generateForecast env rand sqrtFn today pid model days = .ok resp →
      ∀ r ∈ resp.predictions,
        (∃ q : ℚ, r.predicted = .fin q ∧ 0 ≤ q) ∧
        (∃ l u : ℚ, r.lower_bound = .fin l ∧ r.upper_bound = .fin u ∧
          0 ≤ l ∧ l ≤ u) ∧
        (histMean (aggregateDailySales (env pid)) ≠ 0 →
          ∃ c : ℚ, r.confidence_score = .fin c ∧
            13 / 20 ≤ c ∧ c ≤ 19 / 20) := by
  intro resp hok r hr
  by_cases hlen : (env pid).length < 7
  · simp [generateForecast, hlen] at hok
  · rw [generateForecast_ok env rand sqrtFn today pid model days hlen] at hok
    injection hok with hresp
    subst hresp
    replace hr : r ∈ calculateConfidenceIntervals sqrtFn
        (lookupModel model (aggregateDailySales (env pid)) days rand today)
        (aggregateDailySales (env pid)) := hr
    simp only [calculateConfidenceIntervals, List.mem_map] at hr
    obtain ⟨p, hp, rfl⟩ := hr
    obtain ⟨z, hz, hz0⟩ :=
      lookup_predicted_shape model (aggregateDailySales (env pid)) days today rand h2 p hp
    have hσ : 0 ≤ sqrtFn (histVariance (aggregateDailySales (env pid))) :=
      hsq _ (histVariance_nonneg _)
    have hw0 : (0 : ℤ) ≤
        jsRoundQ (sqrtFn (histVariance (aggregateDailySales (env pid))) * (49 / 25)) :=
      jsRoundQ_nonneg _ (by positivity)
    refine ⟨⟨(z : ℚ), hz, by exact_mod_cast hz0⟩, ?_, ?_⟩
    · refine ⟨max 0 ((z : ℚ) +
          -((jsRoundQ (sqrtFn (histVariance (aggregateDailySales (env pid))) *
            (49 / 25)) : ℤ) : ℚ)),
        (z : ℚ) + ((jsRoundQ (sqrtFn (histVariance (aggregateDailySales (env pid))) *
            (49 / 25)) : ℤ) : ℚ), ?_, ?_, le_max_left _ _, ?_⟩
      · show jsMax (.fin 0) (jsSub p.predicted (.fin _)) = .fin _
        rw [hz, jsSub_fin, jsMax_fin]
      · show jsAdd p.predicted (.fin _) = .fin _
        rw [hz, jsAdd_fin]
      · have hwq : (0 : ℚ) ≤
            ((jsRoundQ (sqrtFn (histVariance (aggregateDailySales (env pid))) *
              (49 / 25)) : ℤ) : ℚ) := by exact_mod_cast hw0
        have hzq : (0 : ℚ) ≤ (z : ℚ) := by exact_mod_cast hz0
        exact max_le (by linarith) (by linarith)
    · intro hm
      refine ⟨min (19 / 20) (max (13 / 20)
          (1 + -(sqrtFn (histVariance (aggregateDailySales (env pid))) /
            histMean (aggregateDailySales (env pid)) * (1 / 2)))), ?_, ?_, ?_⟩
      · show jsMin (.fin (19 / 20)) (jsMax (.fin (13 / 20))
            (jsSub (.fin 1) (jsMul (jsDiv (.fin _) (.fin _)) (.fin (1 / 2))))) = .fin _
        rw [jsDiv_fin_ne _ _ hm, jsMul_fin, jsSub_fin, jsMax_fin, jsMin_fin]
      · exact le_min (by norm_num) (le_max_left _ _)
      · exact min_le_left _ _

/-- Claim C8 amended: the moving-average strategy forecasts the trailing
7-period mean scaled by an independent random factor in `[0.95, 1.05)`,
rounded and clamped at 0 — so each point is within 5% of the trailing mean
plus rounding, not exactly equal to it; and the confidence band is a
constant-width band (the same half-width on every forecast row), derived
from the standard deviation of the full historical series, not from
residuals over the trailing window. -/
theorem C8_sma_band (ds : List (ℕ × ℚ)) (days : ℕ) (rand : ℕ → ℚ) (today : ℕ)
    (sqrtFn : ℚ → ℚ)
    (hr : ∀ i, 0 ≤ rand i ∧ rand i < 1) (havg : 0 ≤ smaAverage ds) :
    (∀ p ∈ simpleMovingAverage ds days rand today,
       ∃ z : ℤ, p.predicted = .fin (z : ℚ) ∧
         |(z : ℚ) - smaAverage ds| ≤ smaAverage ds / 20 + 1 / 2) ∧
    (∀ r ∈ calculateConfidenceIntervals sqrtFn
        (simpleMovingAverage ds days rand today) ds,
      ∀ r' ∈ calculateConfidenceIntervals sqrtFn
        (simpleMovingAverage ds days rand today) ds,
        jsSub r.upper_bound r.predicted = jsSub r'.upper_bound r'.predicted) := by
  constructor
  · intro p hp
    simp only [simpleMovingAverage, List.mem_map] at hp
    obtain ⟨j, _, rfl⟩ := hp
    set a := smaAverage ds with ha
    set f := 1 + (rand j - 1 / 2) * (1 / 10) with hf
    clear_value a f
    have hj0 := (hr j).1
    have hj1 := (hr j).2
    have hf1 : 19 / 20 ≤ f := by rw [hf]; linarith
    have hf2 : f ≤ 21 / 20 := by rw [hf]; linarith
    have haf : 0 ≤ a * f := mul_nonneg havg (by linarith)
    have hzr : max 0 (jsRoundQ (a * f)) = jsRoundQ (a * f) :=
      max_eq_right (jsRoundQ_nonneg _ haf)
    refine ⟨max 0 (jsRoundQ (a * f)), rfl, ?_⟩
    rw [hzr]
    have h1 : ((jsRoundQ (a * f) : ℤ) : ℚ) ≤ a * f + 1 / 2 := by
      rw [jsRoundQ]; exact Int.floor_le _
    have h2' : a * f - 1 / 2 < ((jsRoundQ (a * f) : ℤ) : ℚ) := by
      rw [jsRoundQ]
      have := Int.lt_floor_add_one (a * f + 1 / 2)
      linarith
    have hub : a * f ≤ a * (21 / 20) := mul_le_mul_of_nonneg_left hf2 havg
    have hlb : a * (19 / 20) ≤ a * f := mul_le_mul_of_nonneg_left hf1 havg
    rw [abs_le]
    constructor <;> linarith
  · intro r hrm r' hrm'
    simp only [calculateConfidenceIntervals, List.mem_map] at hrm hrm'
    obtain ⟨p, hp, rfl⟩ := hrm
    obtain ⟨p', hp', rfl⟩ := hrm'
    obtain ⟨z, hz, _⟩ := sma_predicted_shape ds days today rand p hp
    obtain ⟨z', hz', _⟩ := sma_predicted_shape ds days today rand p' hp'
    show jsSub (jsAdd p.predicted _) p.predicted =
      jsSub (jsAdd p'.predicted _) p'.predicted
    rw [hz, hz', jsAdd_fin, jsAdd_fin, jsSub_fin, jsSub_fin]
    congr 1
    ring

/-! ### Constant-zero series -/

theorem insertAdd_all_zero (m : List (ℕ × ℚ)) (d : ℕ) :
    (∀ p ∈ m, p.2 = 0) → ∀ p ∈ insertAdd m d 0, p.2 = 0 := by
  induction m with
  | nil =>
    intro _ p hp
    rw [show insertAdd [] d 0 = [(d, 0)] from rfl] at hp
    rw [List.mem_singleton.mp hp]
  | cons hd rest ih =>
    obtain ⟨pd, pv⟩ := hd
    intro hm p hp
    have hpv : pv = 0 := hm (pd, pv) (List.mem_cons_self _ _)
    have hrest : ∀ x ∈ rest, x.2 = 0 := fun x hx => hm x (List.mem_cons_of_mem _ hx)
    by_cases hpd : pd = d
    · subst hpd
      rw [show insertAdd ((pd, pv) :: rest) pd 0 = (pd, pv + 0) :: rest by
        simp [insertAdd]] at hp
      rcases List.mem_cons.mp hp with h | h
      · rw [h]; simp [hpv]
      · exact hrest p h
    · rw [show insertAdd ((pd, pv) :: rest) d 0 = (pd, pv) :: insertAdd rest d 0 by
        simp [insertAdd, hpd]] at hp
      rcases List.mem_cons.mp hp with h | h
      · rw [h]; exact hpv
      · exact ih hrest p h

theorem foldl_insertAdd_all_zero (s : List SalesRecord) :
    (∀ r ∈ s, r.quantity_sold = 0) → ∀ m : List (ℕ × ℚ),
      (∀ p ∈ m, p.2 = 0) →
      ∀ p ∈ s.foldl (fun m r => insertAdd m r.sale_date r.quantity_sold) m,
        p.2 = 0 := by
  induction s with
  | nil => intro _ m hm p hp; exact hm p hp
  | cons r rest ih =>
    intro hz m hm p hp
    simp only [List.foldl_cons] at hp
    have hr0 : r.quantity_sold = 0 := hz r (List.mem_cons_self _ _)
    refine ih (fun x hx => hz x (List.mem_cons_of_mem _ hx)) _ ?_ p hp
    rw [hr0]
    exact insertAdd_all_zero m r.sale_date hm

theorem agg_all_zero (s : List SalesRecord)
    (hz : ∀ r ∈ s, r.quantity_sold = 0) :
    ∀ p ∈ aggregateDailySales s, p.2 = 0 := by
  intro p hp
  exact foldl_insertAdd_all_zero s hz [] (by simp) p
    ((List.perm_insertionSort _ _).mem_iff.mp hp)

theorem smaAverage_zero (ds : List (ℕ × ℚ)) (h0 : ∀ p ∈ ds, p.2 = 0) :
    smaAverage ds = 0 := by
  simp only [smaAverage]
  have h : ((ds.map Prod.snd).drop ((ds.map Prod.snd).length - 7)).sum = 0 := by
    apply List.sum_eq_zero
    intro x hx
    obtain ⟨p, hp, rfl⟩ := List.mem_map.mp (List.drop_subset _ _ hx)
    exact h0 p hp
  rw [h]
  simp

theorem histMean_zero (ds : List (ℕ × ℚ)) (h0 : ∀ p ∈ ds, p.2 = 0) :
    histMean ds = 0 := by
  unfold histMean
  have h : (ds.map Prod.snd).sum = 0 := by
    apply List.sum_eq_zero
    intro x hx
    obtain ⟨p, hp, rfl⟩ := List.mem_map.mp hx
    exact h0 p hp
  rw [h]
  simp

theorem histVariance_zero (ds : List (ℕ × ℚ)) (h0 : ∀ p ∈ ds, p.2 = 0) :
    histVariance ds = 0 := by
  unfold histVariance
  have h : ((ds.map Prod.snd).map (fun v => (v - histMean ds) ^ 2)).sum = 0 := by
    apply List.sum_eq_zero
    intro x hx
    obtain ⟨v, hv, rfl⟩ := List.mem_map.mp hx
    obtain ⟨p, hp, rfl⟩ := List.mem_map.mp hv
    rw [h0 p hp, histMean_zero ds h0]
    norm_num
  rw [h]
  simp

theorem sma_zero (ds : List (ℕ × ℚ)) (days today : ℕ) (rand : ℕ → ℚ)
    (havg : smaAverage ds = 0) :
    simpleMovingAverage ds days rand today =
      (List.range days).map (fun j =>
        { date := today + j + 1, predicted := .fin 0 }) := by
  unfold simpleMovingAverage
  rw [havg]
  refine List.map_congr_left fun j _ => ?_
  norm_num [jsRoundQ]

theorem ci_zero (sqrtFn : ℚ → ℚ) (preds : List Prediction) (ds : List (ℕ × ℚ))
    (hmean : histMean ds = 0) (hvar : histVariance ds = 0) (hsq0 : sqrtFn 0 = 0) :
    calculateConfidenceIntervals sqrtFn preds ds =
      preds.map (fun p =>
        { date := p.date, predicted := p.predicted, confidence_score := .nan,
          lower_bound := jsMax (.fin 0) (jsSub p.predicted (.fin 0)),
          upper_bound := jsAdd p.predicted (.fin 0) }) := by
  unfold calculateConfidenceIntervals
  rw [hmean, hvar, hsq0]
  refine List.map_congr_left fun p _ => ?_
  norm_num [jsRoundQ, jsMin, jsMax, jsSub, jsAdd, jsNeg, jsMul, jsDiv]

/-- Claim C9 amended: on a constant-zero history (with enough rows to pass
the 7-record guard) the service does not fail and does not fall back to any
Naive model — the simple-moving-average run returns, for every period, a
well-formed zero point forecast and zero bounds, but a `NaN` confidence
score produced by the division `0 / 0`. -/
theorem C9_zero_series_behavior (env : ℕ → List SalesRecord) (rand : ℕ → ℚ)
    (sqrtFn : ℚ → ℚ) (today pid days : ℕ)
    (h7 : ¬ (env pid).length < 7)
    (hz : ∀ r ∈ env pid, r.quantity_sold = 0)
    (hsq0 : sqrtFn 0 = 0) :
    generateForecast env rand sqrtFn today pid "simple_moving_average" days =
      .ok { productId := pid, model := "simple_moving_average",
            predictions := (List.range days).map (fun j =>
              { date := today + j + 1, predicted := .fin 0,
                confidence_score := .nan, lower_bound := .fin 0,
                upper_bound := .fin 0 }),
            dataPoints := (aggregateDailySales (env pid)).length } := by
  have h0 : ∀ p ∈ aggregateDailySales (env pid), p.2 = 0 := agg_all_zero _ hz
  rw [generateForecast_ok env rand sqrtFn today pid _ days h7, lookupModel_sma,
    sma_zero _ days today rand (smaAverage_zero _ h0),
    ci_zero sqrtFn _ _ (histMean_zero _ h0) (histVariance_zero _ h0) hsq0]
  simp only [Except.ok.injEq, ForecastResponse.mk.injEq, true_and, and_true]
  rw [List.map_map]
  refine List.map_congr_left fun j _ => ?_
  norm_num [Function.comp, jsMax, jsSub, jsAdd, jsNeg]

/-- Witness for C9 amended: the concrete constant-zero run. -/
theorem C9_witness :
    generateForecast envZero (fun _ => 1 / 2) (fun _ => 0) 0 0
        "simple_moving_average" 1 =
      .ok { productId := 0, model := "simple_moving_average",
            predictions := (List.range 1).map (fun j =>
              { date := 0 + j + 1, predicted := .fin 0,
                confidence_score := .nan, lower_bound := .fin 0,
                upper_bound := .fin 0 }),
            dataPoints := (aggregateDailySales (envZero 0)).length } :=
  C9_zero_series_behavior envZero (fun _ => 1 / 2) (fun _ => 0) 0 0 1
    (by norm_num [envZero, recsZero])
    (by intro r hr; simp only [envZero, recsZero, List.mem_cons,
          List.not_mem_nil, or_false] at hr
        rcases hr with h | h | h | h | h | h | h <;> rw [h])
    rfl

/-- The forecast row produced by the C7 witness run (constant-100 history,
draw 0.5, zero standard deviation). -/
def rowC7 : PredCI :=
  { date := 1, predicted := .fin 100, confidence_score := .fin (19 / 20),
    lower_bound := .fin 100, upper_bound := .fin 100 }

/-- The response of the C7 witness run. -/
def respC7 : ForecastResponse :=
  { productId := 0, model := "simple_moving_average", predictions := [rowC7],
    dataPoints := 7 }

theorem genC7_run :
    generateForecast envHundred (fun _ => 1 / 2) (fun _ => 0) 0 0
      "simple_moving_average" 1 = .ok respC7 := by
  rw [generateForecast_ok _ _ _ _ _ _ _ (by norm_num [envHundred, recsHundred])]
  rw [show envHundred 0 = recsHundred from rfl, agg_recsHundred, lookupModel_sma]
  norm_num [respC7, rowC7, simpleMovingAverage, smaAverage,
    calculateConfidenceIntervals, histMean, histVariance, jsRoundQ,
    jsMin, jsMax, jsSub, jsAdd, jsNeg, jsMul, jsDiv, List.range_succ]

/-- Witness for C7 amended: the bound and confidence invariants evaluated on
the concrete constant-100 run. -/
theorem C7_witness :
    (∃ q : ℚ, rowC7.predicted = .fin q ∧ 0 ≤ q) ∧
    (∃ l u : ℚ, rowC7.lower_bound = .fin l ∧ rowC7.upper_bound = .fin u ∧
      0 ≤ l ∧ l ≤ u) ∧
    (histMean (aggregateDailySales (envHundred 0)) ≠ 0 →
      ∃ c : ℚ, rowC7.confidence_score = .fin c ∧ 13 / 20 ≤ c ∧ c ≤ 19 / 20) :=
  C7_result_invariants envHundred (fun _ => 1 / 2) (fun _ => 0) 0 0
    "simple_moving_average" 1 (fun _ _ => le_refl 0)
    (by rw [show envHundred 0 = recsHundred from rfl, agg_recsHundred]; norm_num)
    respC7 genC7_run rowC7 (by simp [respC7])

/-- Witness for C8 amended: on the constant-100 series with a constant draw
of 0.5 the single forecast point 100 is within the band around the trailing
mean 100. -/
theorem C8_witness :
    ∃ z : ℤ, ({ date := 1, predicted := JSNum.fin 100 } : Prediction).predicted =
        .fin (z : ℚ) ∧
      |(z : ℚ) - smaAverage [(0, 100), (1, 100), (2, 100), (3, 100), (4, 100),
          (5, 100), (6, 100)]| ≤
        smaAverage [(0, 100), (1, 100), (2, 100), (3, 100), (4, 100), (5, 100),
          (6, 100)] / 20 + 1 / 2 :=
  (C8_sma_band [(0, 100), (1, 100), (2, 100), (3, 100), (4, 100), (5, 100), (6, 100)]
      1 (fun _ => 1 / 2) 0 (fun _ => 0)
      (fun i => by norm_num) (by norm_num [smaAverage])).1
    { date := 1, predicted := JSNum.fin 100 }
    (by norm_num [simpleMovingAverage, smaAverage, jsRoundQ, List.range_succ])

end Stocksight
